import Mathlib

/-!
Shallow embedding of `src/Storages/Kafka/KafkaConsumer2.cpp` (ClickHouse).

The consumer state (assignment, queue-set keys, message batch, cursor,
stalled status, the needs-offset-update flag) is modelled as a record; each
member function of `KafkaConsumer2` becomes a Lean function on that record.
External effects (the stop flag, the result of a queue pull, the outcomes of
broker commit calls, the shared-queue poll stream and the wall clock during
draining) are passed in explicitly as parameters, since the source reads
them through the cppkafka client.
-/

namespace KafkaConsumer2

/-- TopicPartition from KafkaConsumer2: topic name, partition id, offset. -/
structure TopicPartition where
  topic : String
  partition_id : Int
  offset : Int
deriving DecidableEq

/-- The order on std::string is lexicographic on the character sequence;
core Lean's String order is the same relation on the underlying data, and
deciding it through the data lets concrete instances reduce in the kernel. -/
instance strDecLt (s t : String) : Decidable (s < t) :=
  decidable_of_iff (s.toList < t.toList) String.lt_iff_toList_lt.symm

/-- The strict order used by `TopicPartition::operator<` in the source:
lexicographic on the full (topic, partition_id, offset) triple via std::tie. -/
def tpLtP (a b : TopicPartition) : Prop :=
  a.topic < b.topic
    ∨ (a.topic = b.topic
        ∧ (a.partition_id < b.partition_id
            ∨ (a.partition_id = b.partition_id ∧ a.offset < b.offset)))

instance (a b : TopicPartition) : Decidable (tpLtP a b) := by
  unfold tpLtP; infer_instance

/-- Boolean form of `TopicPartition::operator<`. -/
def tpLt (a b : TopicPartition) : Bool := decide (tpLtP a b)

/-- A raw cppkafka message as the consumer sees it: coordinates, an optional
delivery error (none means RD_KAFKA_RESP_ERR_NO_ERROR) and the payload bytes. -/
structure Message where
  topic : String
  partition_id : Int
  offset : Int
  error : Option Nat
  payload : List Nat
deriving DecidableEq

/-- Modelled from the spec: the StalledStatus enum is declared in the missing
header KafkaConsumer2.h; the spec lists exactly these four values. -/
inductive StalledStatus where
  | NOT_STALLED
  | NO_MESSAGES_RETURNED
  | CONSUMER_STOPPED
  | ERRORS_RETURNED
deriving DecidableEq

/-- The mutable fields of KafkaConsumer2 that the claims are about.  The
queue map of the source, std::map from TopicPartition to queue handle, is
modelled by its key list; lookups use the map's comparator (see
`mapContains`).  The cursor `current` is an index into `messages`; the
end iterator corresponds to `current = messages.length`. -/
structure ConsumerState where
  kafkaAssigned : Option (List TopicPartition)
  queues : List TopicPartition
  needs_offset_update : Bool
  messages : List Message
  current : Nat
  stalled_status : StalledStatus
deriving DecidableEq

/-- Equivalence of keys under std::map with `TopicPartition::operator<`:
two keys collide exactly when neither is less than the other. -/
def mapContains (keys : List TopicPartition) (k : TopicPartition) : Bool :=
  keys.any (fun q => !(tpLt q k) && !(tpLt k q))

/-- KafkaConsumer2::resetIfStopped: if the stop flag is set, record
CONSUMER_STOPPED.  The flag value observed at this check point is passed in. -/
def resetIfStopped (stopped : Bool) (st : ConsumerState) : ConsumerState :=
  if stopped then { st with stalled_status := StalledStatus.CONSUMER_STOPPED } else st

/-- KafkaConsumer2::polledDataUnusable: false when the cursor is at the end;
otherwise true exactly when the message at the cursor has a different topic
or partition id than the requested TopicPartition. -/
def polledDataUnusable (st : ConsumerState) (tp : TopicPartition) : Bool :=
  match st.messages.get? st.current with
  | none => false
  | some m => m.topic != tp.topic || m.partition_id != tp.partition_id

/-- Modelled from the spec: `hasMorePolledMessages` is declared in the missing
header KafkaConsumer2.h; per the spec it holds exactly when the cursor has
remaining entries in the current batch. -/
def hasMorePolledMessages (st : ConsumerState) : Bool :=
  st.current < st.messages.length

/-- KafkaConsumer2::getNextMessage: if the cursor is not at the end, return a
read-only view over the payload of the message at the cursor and advance the
cursor by one; otherwise return nothing. -/
def getNextMessage (st : ConsumerState) : Option (List Nat) × ConsumerState :=
  match st.messages.get? st.current with
  | some m => (some m.payload, { st with current := st.current + 1 })
  | none => (none, st)

/-- KafkaConsumer2::filterMessageErrors: erase every message carrying a
delivery error (std::erase_if keeps the relative order of survivors), return
the number erased, and reset the cursor to the start when anything was erased. -/
def filterMessageErrors (st : ConsumerState) : Nat × ConsumerState :=
  let remaining := st.messages.filter (fun m => m.error.isNone)
  let skipped := st.messages.length - remaining.length
  if skipped ≠ 0 then (skipped, { st with messages := remaining, current := 0 })
  else (skipped, st)

/-- KafkaConsumer2::initializeQueues: clear the queue map, the batch and the
cursor, re-assign, then store one queue handle per delivered partition keyed
by its full TopicPartition triple. -/
def initializeQueues (st : ConsumerState) (tps : List TopicPartition) : ConsumerState :=
  { st with queues := tps, messages := [], current := 0 }

/-- The assignment-received rebalance callback: record the delivered
partition list as the assignment, set needs_offset_update, rebuild the
queues for exactly the delivered list. -/
def onKafkaAssigned (st : ConsumerState) (tps : List TopicPartition) : ConsumerState :=
  initializeQueues { st with kafkaAssigned := some tps, needs_offset_update := true } tps

/-- The revocation rebalance callback: clear the assignment, clear the queue
map, set needs_offset_update.  The delivered partition list only feeds
metrics in the source and does not influence the state transition. -/
def onRevocation (st : ConsumerState) : ConsumerState :=
  { st with kafkaAssigned := none, queues := [], needs_offset_update := true }

/-- KafkaConsumer2::updateOffsets: rebuild the queues from the caller's
list, clear needs_offset_update, reset the stall state. -/
def updateOffsets (st : ConsumerState) (tps : List TopicPartition) : ConsumerState :=
  let st1 := initializeQueues st tps
  { st1 with needs_offset_update := false, stalled_status := StalledStatus.NOT_STALLED }

/-- Result of one call to KafkaConsumer2::consume: a payload view, a null
ReadBufferPtr, or the std::out_of_range escaping from queues.at. -/
inductive ConsumeResult where
  | msg (payload : List Nat)
  | nothing
  | thrown
deriving DecidableEq

/-- External inputs of one consume call: the stop-flag value observed by the
entry check, the value observed by the re-check after the blocking pull, and
the batch the partition queue's consume_batch call delivers. -/
structure ConsumeEnv where
  stopAtEntry : Bool
  stopAfterPull : Bool
  pulled : List Message
deriving DecidableEq

/-- Observable outcome of one consume call: the returned value, the state the
consumer is left in, and whether consume_batch was reached on the partition
queue (false when the call returns before the pull or throws at queues.at). -/
structure ConsumeOutcome where
  result : ConsumeResult
  state : ConsumerState
  pullAttempted : Bool
deriving DecidableEq

/-- Body of the `while (true)` loop of KafkaConsumer2::consume.  Every branch
of the loop body in the source either returns or breaks, so the loop runs at
most once and inlines into straight-line code: set NO_MESSAGES_RETURNED, look
the partition up in the queue map (queues.at throws when the full triple is
absent), pull, re-check the stop flag, and on a non-empty pull install the
new batch, filter errors and hand out the first surviving message. -/
def consumePoll (env : ConsumeEnv) (st1 : ConsumerState) (tp : TopicPartition) : ConsumeOutcome :=
  let st2 := { st1 with stalled_status := StalledStatus.NO_MESSAGES_RETURNED }
  if mapContains st2.queues tp then
    let st3 := resetIfStopped env.stopAfterPull st2
    if st3.stalled_status = StalledStatus.CONSUMER_STOPPED then
      ⟨ConsumeResult.nothing, st3, true⟩
    else if env.pulled.isEmpty then
      ⟨ConsumeResult.nothing, st3, true⟩
    else
      let st4 := { st3 with messages := env.pulled, current := 0 }
      let st5 := (filterMessageErrors st4).2
      if st5.current = st5.messages.length then
        ⟨ConsumeResult.nothing, { st5 with stalled_status := StalledStatus.ERRORS_RETURNED }, true⟩
      else
        let st6 := { st5 with stalled_status := StalledStatus.NOT_STALLED }
        let r := getNextMessage st6
        match r.1 with
        | some payload => ⟨ConsumeResult.msg payload, r.2, true⟩
        | none => ⟨ConsumeResult.nothing, r.2, true⟩
  else
    ⟨ConsumeResult.thrown, st2, false⟩

/-- KafkaConsumer2::consume: entry stop-flag check, staleness check against
the current batch, fast path over buffered messages, otherwise the pull loop. -/
def consume (env : ConsumeEnv) (st0 : ConsumerState) (tp : TopicPartition) : ConsumeOutcome :=
  let st1 := resetIfStopped env.stopAtEntry st0
  if polledDataUnusable st1 tp then
    ⟨ConsumeResult.nothing, st1, false⟩
  else if hasMorePolledMessages st1 then
    let r := getNextMessage st1
    match r.1 with
    | some payload => ⟨ConsumeResult.msg payload, r.2, false⟩
    | none => consumePoll env st1 tp
  else
    consumePoll env st1 tp

/-- Outcome of one broker commit attempt as KafkaConsumer2::commit observes
it: the call succeeds, throws with RD_KAFKA_RESP_ERR__NO_OFFSET, or throws
with any other HandleException. -/
inductive CommitOutcome where
  | success
  | noOffset
  | genericError
deriving DecidableEq

/-- What a call to KafkaConsumer2::commit leaves behind: how many broker
commit calls it made and how it bumped the KafkaCommits /
KafkaCommitFailures profile counters. -/
structure CommitResult where
  attempts : Nat
  commits : Nat
  commitFailures : Nat
deriving DecidableEq

/-- The retry for-loop of KafkaConsumer2::commit: at most `fuel` further
iterations, `calls` broker calls made so far, `committed` the flag.  A
success or a NO_OFFSET outcome sets the flag; a generic error only logs. -/
def commitGo (client : Nat → CommitOutcome) : Nat → Nat → Bool → Nat × Bool
  | 0, calls, committed => (calls, committed)
  | fuel + 1, calls, committed =>
    if committed then (calls, committed)
    else
      match client calls with
      | CommitOutcome.genericError => commitGo client fuel (calls + 1) false
      | _ => commitGo client fuel (calls + 1) true

/-- KafkaConsumer2::commit: run the retry loop with max_retries = 5, then
count one KafkaCommits on success and one KafkaCommitFailures otherwise.
The function always returns normally to the caller. -/
def commit (client : Nat → CommitOutcome) : CommitResult :=
  let r := commitGo client 5 0 false
  if r.2 then ⟨r.1, 1, 0⟩ else ⟨r.1, 0, 1⟩

/-- A message polled from the shared group queue during draining: its error
code (0 is RD_KAFKA_RESP_ERR_NO_ERROR) and whether it is an EOF message. -/
structure DrainMsg where
  err : Nat
  isEof : Bool
deriving DecidableEq

/-- The drain loop of KafkaConsumer2::drainConsumerQueue.  `poll i` is what
the i-th consumer->poll call returns; `clock i` is the steady-clock reading
the i-th iteration observes at its end; `t0` is the start_time reading.  The
loop breaks on: no message; a non-zero error that is EOF or repeats the
previous error; elapsed time over DRAIN_TIMEOUT_MS = 5000.  Otherwise it
stores the error (even a zero one) into last_error and iterates.  `fuel` is
an artifact of the embedding: the source loop is unbounded, and `none` means
the loop has not terminated within `fuel` iterations. -/
def drainGo (poll : Nat → Option DrainMsg) (t0 : Nat) (clock : Nat → Nat) :
    Nat → Nat → Nat → Option Nat
  | 0, _, _ => none
  | fuel + 1, i, lastErr =>
    match poll i with
    | none => some i
    | some m =>
      if m.err != 0 && (m.isEof || m.err == lastErr) then some (i + 1)
      else if 5000 < clock i - t0 then some (i + 1)
      else drainGo poll t0 clock fuel (i + 1) m.err

/-- KafkaConsumer2::drainConsumerQueue with an explicit iteration bound:
last_error starts as RD_KAFKA_RESP_ERR_NO_ERROR and the iteration counter at
zero. -/
def drainConsumerQueue (poll : Nat → Option DrainMsg) (t0 : Nat) (clock : Nat → Nat)
    (fuel : Nat) : Option Nat :=
  drainGo poll t0 clock fuel 0 0

/-- Events that mutate the consumer state, for stating trace invariants: the
two rebalance callbacks, the caller-driven offset update, and a consume call
with its external inputs. -/
inductive Event where
  | kafkaAssignedEv (tps : List TopicPartition)
  | revokedEv
  | offsetUpdateEv (tps : List TopicPartition)
  | consumeEv (env : ConsumeEnv) (tp : TopicPartition)

/-- One state transition per event. -/
def step (st : ConsumerState) : Event → ConsumerState
  | Event.kafkaAssignedEv tps => onKafkaAssigned st tps
  | Event.revokedEv => onRevocation st
  | Event.offsetUpdateEv tps => updateOffsets st tps
  | Event.consumeEv env tp => (consume env st tp).state

/-- Run a trace of events from a state. -/
def run (st : ConsumerState) (evs : List Event) : ConsumerState :=
  evs.foldl step st

/-! Helper lemmas about the embedded operations. -/

theorem tpLt_both_false_iff (a b : TopicPartition) :
    (tpLt a b = false ∧ tpLt b a = false) ↔ a = b := by
  unfold tpLt
  simp only [decide_eq_false_iff_not]
  constructor
  · rintro ⟨h1, h2⟩
    unfold tpLtP at h1 h2
    push_neg at h1 h2
    have ht : a.topic = b.topic := le_antisymm h2.1 h1.1
    have h1p := h1.2 ht
    have h2p := h2.2 ht.symm
    have hp : a.partition_id = b.partition_id := le_antisymm h2p.1 h1p.1
    have ho : a.offset = b.offset := le_antisymm (h2p.2 hp.symm) (h1p.2 hp)
    cases a; cases b
    simp only at ht hp ho
    rw [ht, hp, ho]
  · rintro rfl
    refine ⟨?_, ?_⟩ <;>
      (unfold tpLtP; push_neg;
        exact ⟨le_refl _, fun _ => ⟨le_refl _, fun _ => le_refl _⟩⟩)

theorem mapContains_iff_mem (keys : List TopicPartition) (k : TopicPartition) :
    mapContains keys k = true ↔ k ∈ keys := by
  unfold mapContains
  rw [List.any_eq_true]
  constructor
  · rintro ⟨q, hq, hb⟩
    simp only [Bool.and_eq_true, Bool.not_eq_true'] at hb
    exact ((tpLt_both_false_iff q k).mp ⟨hb.1, hb.2⟩) ▸ hq
  · intro hk
    have hrefl := (tpLt_both_false_iff k k).mpr rfl
    exact ⟨k, hk, by simp [hrefl.1]⟩

theorem resetIfStopped_messages (b : Bool) (st : ConsumerState) :
    (resetIfStopped b st).messages = st.messages := by
  cases b <;> rfl

theorem resetIfStopped_current (b : Bool) (st : ConsumerState) :
    (resetIfStopped b st).current = st.current := by
  cases b <;> rfl

theorem resetIfStopped_queues (b : Bool) (st : ConsumerState) :
    (resetIfStopped b st).queues = st.queues := by
  cases b <;> rfl

theorem resetIfStopped_noupd (b : Bool) (st : ConsumerState) :
    (resetIfStopped b st).needs_offset_update = st.needs_offset_update := by
  cases b <;> rfl

theorem resetIfStopped_stalled (b : Bool) (st : ConsumerState) :
    (resetIfStopped b st).stalled_status =
      (if b then StalledStatus.CONSUMER_STOPPED else st.stalled_status) := by
  cases b <;> rfl

theorem polledDataUnusable_reset (b : Bool) (st : ConsumerState) (tp : TopicPartition) :
    polledDataUnusable (resetIfStopped b st) tp = polledDataUnusable st tp := by
  cases b <;> rfl

theorem hasMore_reset (b : Bool) (st : ConsumerState) :
    hasMorePolledMessages (resetIfStopped b st) = hasMorePolledMessages st := by
  cases b <;> rfl

theorem getNextMessage_noupd (st : ConsumerState) :
    (getNextMessage st).2.needs_offset_update = st.needs_offset_update := by
  unfold getNextMessage
  cases st.messages.get? st.current <;> rfl

theorem filterMessageErrors_noupd (st : ConsumerState) :
    (filterMessageErrors st).2.needs_offset_update = st.needs_offset_update := by
  unfold filterMessageErrors
  by_cases h :
      st.messages.length - (st.messages.filter (fun m => m.error.isNone)).length ≠ 0 <;>
    simp [h]

theorem length_filter_split (l : List Message) :
    (l.filter (fun m => m.error.isNone)).length
      + (l.filter (fun m => m.error.isSome)).length = l.length := by
  induction l with
  | nil => rfl
  | cons m t ih =>
    cases h : m.error <;>
      simp only [List.filter_cons, h, Option.isNone_none, Option.isSome_none,
        Option.isNone_some, Option.isSome_some, List.length_cons, if_true, if_false,
        Bool.false_eq_true, ite_true, ite_false] <;> omega

theorem consumePoll_absent_key (env : ConsumeEnv) (st1 : ConsumerState)
    (tp : TopicPartition) (hkey : mapContains st1.queues tp = false) :
    consumePoll env st1 tp =
      ⟨ConsumeResult.thrown,
        { st1 with stalled_status := StalledStatus.NO_MESSAGES_RETURNED }, false⟩ := by
  unfold consumePoll
  simp [hkey]

theorem consumePoll_stopped (env : ConsumeEnv) (st1 : ConsumerState)
    (tp : TopicPartition) (hstop : env.stopAfterPull = true)
    (hkey : mapContains st1.queues tp = true) :
    consumePoll env st1 tp =
      ⟨ConsumeResult.nothing,
        { st1 with stalled_status := StalledStatus.CONSUMER_STOPPED }, true⟩ := by
  unfold consumePoll
  simp [hkey, hstop, resetIfStopped]

theorem consumePoll_pullAttempted (env : ConsumeEnv) (st1 : ConsumerState)
    (tp : TopicPartition) :
    (consumePoll env st1 tp).pullAttempted = mapContains st1.queues tp := by
  unfold consumePoll
  cases hkey : mapContains st1.queues tp
  · simp [hkey]
  · simp only [hkey, if_true]
    repeat' split
    all_goals rfl

theorem consume_eq_poll (env : ConsumeEnv) (st : ConsumerState) (tp : TopicPartition)
    (hpu : polledDataUnusable st tp = false)
    (hmore : hasMorePolledMessages st = false) :
    consume env st tp = consumePoll env (resetIfStopped env.stopAtEntry st) tp := by
  unfold consume
  simp [polledDataUnusable_reset, hasMore_reset, hpu, hmore]

theorem consume_pull_char (env : ConsumeEnv) (st : ConsumerState) (tp : TopicPartition)
    (hpull : (consume env st tp).pullAttempted = true) :
    consume env st tp = consumePoll env (resetIfStopped env.stopAtEntry st) tp := by
  unfold consume at hpull ⊢
  cases hpu : polledDataUnusable (resetIfStopped env.stopAtEntry st) tp
  · cases hmore : hasMorePolledMessages (resetIfStopped env.stopAtEntry st)
    · simp [hpu, hmore]
    · cases hg : (getNextMessage (resetIfStopped env.stopAtEntry st)).1
      · simp [hpu, hmore, hg]
      · simp [hpu, hmore, hg] at hpull
  · simp [hpu] at hpull

theorem consumePoll_all_errors (env : ConsumeEnv) (st1 : ConsumerState)
    (tp : TopicPartition) (hstop : env.stopAfterPull = false)
    (hkey : mapContains st1.queues tp = true)
    (hne : env.pulled ≠ [])
    (herr : ∀ m ∈ env.pulled, m.error.isSome = true) :
    consumePoll env st1 tp =
      ⟨ConsumeResult.nothing,
        { st1 with
          messages := []
          current := 0
          stalled_status := StalledStatus.ERRORS_RETURNED }, true⟩ := by
  have hfilter : env.pulled.filter (fun m => m.error.isNone) = [] := by
    rw [List.filter_eq_nil_iff]
    intro m hm
    simp [Option.isNone_iff_eq_none, ← Option.isSome_iff_ne_none, herr m hm]
  have hlen : env.pulled.length ≠ 0 := by
    cases hp : env.pulled
    · exact absurd hp hne
    · simp [hp]
  unfold consumePoll
  simp [hkey, hstop, resetIfStopped, filterMessageErrors, hfilter,
    List.isEmpty_iff, hne, hlen]

theorem consumePoll_noupd (env : ConsumeEnv) (st1 : ConsumerState) (tp : TopicPartition) :
    (consumePoll env st1 tp).state.needs_offset_update = st1.needs_offset_update := by
  unfold consumePoll
  cases hkey : mapContains st1.queues tp
  · simp [hkey]
  · simp only [hkey, if_true]
    repeat' split
    all_goals
      simp [getNextMessage_noupd, filterMessageErrors_noupd, resetIfStopped_noupd]

theorem consume_noupd (env : ConsumeEnv) (st : ConsumerState) (tp : TopicPartition) :
    (consume env st tp).state.needs_offset_update = st.needs_offset_update := by
  unfold consume
  cases hpu : polledDataUnusable (resetIfStopped env.stopAtEntry st) tp
  · cases hmore : hasMorePolledMessages (resetIfStopped env.stopAtEntry st)
    · simp [hpu, hmore, consumePoll_noupd, resetIfStopped_noupd]
    · cases hg : (getNextMessage (resetIfStopped env.stopAtEntry st)).1
      · simp [hpu, hmore, hg, consumePoll_noupd, resetIfStopped_noupd]
      · simp [hpu, hmore, hg, getNextMessage_noupd, resetIfStopped_noupd]
  · simp [hpu, resetIfStopped_noupd]

/-! Concrete fixtures used by counterexamples and witnesses. -/

def tpA : TopicPartition := ⟨"t", 0, 0⟩

def tpB : TopicPartition := ⟨"t", 1, 0⟩

def msgA : Message := ⟨"t", 0, 0, none, [7]⟩

def msgB : Message := ⟨"t", 0, 1, none, [8]⟩

def msgErr : Message := ⟨"t", 0, 2, some 1, [9]⟩

def envIdle : ConsumeEnv := ⟨false, false, []⟩

def envStopped : ConsumeEnv := ⟨true, true, []⟩

def stA : ConsumerState := ⟨some [tpA], [tpA], false, [msgA], 0, StalledStatus.NOT_STALLED⟩

def stB : ConsumerState :=
  ⟨some [tpA], [tpA], false, [msgA, msgB], 1, StalledStatus.NOT_STALLED⟩

def stEmptyBatch : ConsumerState := ⟨some [tpA], [tpA], false, [], 0, StalledStatus.NOT_STALLED⟩

def stErr : ConsumerState :=
  ⟨some [tpA], [tpA], false, [msgErr, msgA], 0, StalledStatus.NOT_STALLED⟩

def stFlagged : ConsumerState := ⟨some [tpA], [tpA], true, [], 0, StalledStatus.NOT_STALLED⟩

/-! Claim theorems. -/

/-- C2: a consume call for a partition different from the (topic, partition
id) of the message under the cursor of a non-exhausted batch returns nothing,
attempts no pull from any queue, and leaves the batch contents and the cursor
unchanged. -/
theorem consume_wrong_partition_frame (env : ConsumeEnv) (st : ConsumerState)
    (tp : TopicPartition) (m : Message)
    (hcur : st.messages.get? st.current = some m)
    (hdiff : m.topic ≠ tp.topic ∨ m.partition_id ≠ tp.partition_id) :
    (consume env st tp).result = ConsumeResult.nothing ∧
    (consume env st tp).pullAttempted = false ∧
    (consume env st tp).state.messages = st.messages ∧
    (consume env st tp).state.current = st.current := by
  have hpu : polledDataUnusable st tp = true := by
    unfold polledDataUnusable
    rw [hcur]
    rcases hdiff with h | h <;> simp [h]
  have key : consume env st tp =
      ⟨ConsumeResult.nothing, resetIfStopped env.stopAtEntry st, false⟩ := by
    unfold consume
    simp [polledDataUnusable_reset, hpu]
  rw [key]
  exact ⟨rfl, rfl, resetIfStopped_messages _ _, resetIfStopped_current _ _⟩

/-- Witness for C2 at a concrete state: a buffered batch for ("t", 0) and a
request for ("t", 1). -/
theorem consume_wrong_partition_frame_witness :
    (consume envIdle stA tpB).result = ConsumeResult.nothing ∧
    (consume envIdle stA tpB).pullAttempted = false ∧
    (consume envIdle stA tpB).state.messages = stA.messages ∧
    (consume envIdle stA tpB).state.current = stA.current :=
  consume_wrong_partition_frame envIdle stA tpB msgA (by decide) (by decide)

/-- C8: the revocation callback always leaves no assignment, an empty queue
set and the needs-offset-update flag set, whatever the state before it. -/
theorem onRevocation_spec (st : ConsumerState) :
    (onRevocation st).kafkaAssigned = none ∧
    (onRevocation st).queues = [] ∧
    (onRevocation st).needs_offset_update = true :=
  ⟨rfl, rfl, rfl⟩

/-- C4: when k > 0 messages of the batch carry a delivery error, filtering
reports exactly k skipped messages, shrinks the batch from m to m - k,
leaves only error-free messages, and resets the cursor to the start. -/
theorem filterMessageErrors_removes_errors (st : ConsumerState)
    (hk : 0 < (st.messages.filter (fun m => m.error.isSome)).length) :
    (filterMessageErrors st).1 = (st.messages.filter (fun m => m.error.isSome)).length ∧
    (filterMessageErrors st).2.messages.length
      = st.messages.length - (filterMessageErrors st).1 ∧
    (∀ m ∈ (filterMessageErrors st).2.messages, m.error = none) ∧
    (filterMessageErrors st).2.current = 0 := by
  have hsplit := length_filter_split st.messages
  have hskip : st.messages.length - (st.messages.filter (fun m => m.error.isNone)).length
      = (st.messages.filter (fun m => m.error.isSome)).length := by omega
  unfold filterMessageErrors
  simp only [hskip]
  rw [if_pos (by omega : ¬(st.messages.filter (fun m => m.error.isSome)).length = 0)]
  refine ⟨rfl, ?_, ?_, rfl⟩
  · have hgoal : (st.messages.filter (fun m => m.error.isNone)).length
        = st.messages.length - (st.messages.filter (fun m => m.error.isSome)).length := by
      omega
    exact hgoal
  · intro m hm
    have hm2 : m ∈ st.messages.filter (fun m => m.error.isNone) := hm
    have h2 := (List.mem_filter.mp hm2).2
    simpa [Option.isNone_iff_eq_none] using h2

/-- Witness for C4 at a concrete batch of two messages, one carrying an
error. -/
theorem filterMessageErrors_removes_errors_witness :
    (filterMessageErrors stErr).1
      = (stErr.messages.filter (fun m => m.error.isSome)).length ∧
    (filterMessageErrors stErr).2.messages.length
      = stErr.messages.length - (filterMessageErrors stErr).1 ∧
    (∀ m ∈ (filterMessageErrors stErr).2.messages, m.error = none) ∧
    (filterMessageErrors stErr).2.current = 0 :=
  filterMessageErrors_removes_errors stErr (by decide)

/-- C5: both rebalance callbacks set the needs-offset-update flag, the flag
stays set across any trace of events that contains no updateOffsets call,
updateOffsets clears it, and right after an assignment-received callback the
queue-set keys are exactly the delivered partition list. -/
theorem needs_offset_update_protocol (st : ConsumerState) (tps : List TopicPartition) :
    ((onKafkaAssigned st tps).needs_offset_update = true ∧
      ∀ tp, mapContains (onKafkaAssigned st tps).queues tp = true ↔ tp ∈ tps) ∧
    (onRevocation st).needs_offset_update = true ∧
    (∀ evs : List Event, st.needs_offset_update = true →
      (∀ l, Event.offsetUpdateEv l ∉ evs) → (run st evs).needs_offset_update = true) ∧
    (∀ l, (updateOffsets st l).needs_offset_update = false) := by
  refine ⟨⟨rfl, fun tp => ?_⟩, rfl, ?_, fun l => rfl⟩
  · simp [onKafkaAssigned, initializeQueues, mapContains_iff_mem]
  · intro evs
    induction evs generalizing st with
    | nil => intro h _; exact h
    | cons e t ih =>
      intro h hnot
      have hstep : (step st e).needs_offset_update = true := by
        cases e with
        | kafkaAssignedEv l => rfl
        | revokedEv => rfl
        | offsetUpdateEv l => exact absurd (List.mem_cons_self _ _) (hnot l)
        | consumeEv env tp =>
          show (consume env st tp).state.needs_offset_update = true
          rw [consume_noupd]; exact h
      exact ih (step st e) hstep (fun l hl => hnot l (List.mem_cons_of_mem _ hl))

/-- Witness for C5: a flagged state stays flagged across a revocation and a
consume call, the assignment callback sets the flag and installs exactly the
delivered keys, and updateOffsets clears the flag. -/
theorem needs_offset_update_protocol_witness :
    (run stFlagged [Event.revokedEv, Event.consumeEv envIdle tpA]).needs_offset_update = true ∧
    (onKafkaAssigned stFlagged [tpB]).needs_offset_update = true ∧
    (mapContains (onKafkaAssigned stFlagged [tpB]).queues tpB = true ↔ tpB ∈ [tpB]) ∧
    (updateOffsets stFlagged []).needs_offset_update = false :=
  have T := needs_offset_update_protocol stFlagged [tpB]
  ⟨T.2.2.1 [Event.revokedEv, Event.consumeEv envIdle tpA] rfl
      (by
        intro l hl
        simp only [List.mem_cons, List.mem_singleton] at hl
        rcases hl with h | h
        · exact Event.noConfusion h
        · rcases h with h | h
          · exact Event.noConfusion h
          · exact absurd h (List.not_mem_nil _)),
    T.1.1, T.1.2 tpB, T.2.2.2 []⟩

def envErr : ConsumeEnv := ⟨false, false, [msgErr]⟩

def tpOff5 : TopicPartition := ⟨"t", 0, 5⟩

def tpOff7 : TopicPartition := ⟨"t", 0, 7⟩

def stOff : ConsumerState := ⟨some [tpOff5], [tpOff5], false, [], 0, StalledStatus.NOT_STALLED⟩

/-- C1 counterexample: with the stop flag already set at entry and an
exhausted batch, the call still reaches consume_batch on the partition
queue, refuting that no pull is attempted when the flag is set at entry. -/
theorem consume_stop_entry_counterexample :
    envStopped.stopAtEntry = true ∧
    (consume envStopped stEmptyBatch tpA).pullAttempted = true := by
  decide

/-- C1 amended: the entry check only marks CONSUMER_STOPPED without
returning early; whenever the call does reach the pull and the stop flag is
observed set at the post-pull re-check, the call returns nothing with
StalledStatus = CONSUMER_STOPPED. -/
theorem consume_stop_rechecked (env : ConsumeEnv) (st : ConsumerState)
    (tp : TopicPartition) (hstop : env.stopAfterPull = true) :
    (resetIfStopped true st).stalled_status = StalledStatus.CONSUMER_STOPPED ∧
    ((consume env st tp).pullAttempted = true →
      (consume env st tp).result = ConsumeResult.nothing ∧
      (consume env st tp).state.stalled_status = StalledStatus.CONSUMER_STOPPED) := by
  refine ⟨rfl, fun hpull => ?_⟩
  have hch := consume_pull_char env st tp hpull
  rw [hch] at hpull ⊢
  have hkey : mapContains (resetIfStopped env.stopAtEntry st).queues tp = true := by
    rw [consumePoll_pullAttempted] at hpull
    exact hpull
  rw [consumePoll_stopped env _ tp hstop hkey]
  exact ⟨rfl, rfl⟩

/-- Witness for the amended C1: stop flag set at entry and still set after
the pull, exhausted batch; the pull happens and the call returns nothing
with CONSUMER_STOPPED. -/
theorem consume_stop_rechecked_witness :
    (consume envStopped stEmptyBatch tpA).result = ConsumeResult.nothing ∧
    (consume envStopped stEmptyBatch tpA).state.stalled_status
      = StalledStatus.CONSUMER_STOPPED :=
  (consume_stop_rechecked envStopped stEmptyBatch tpA rfl).2 (by decide)

/-- C6 counterexample: the buffered fast path does not set StalledStatus to
NOT_STALLED; with the stop flag set at entry it hands out the buffered
message while StalledStatus is CONSUMER_STOPPED. -/
theorem consume_fast_path_counterexample :
    envStopped.stopAtEntry = true ∧
    polledDataUnusable stB tpA = false ∧
    hasMorePolledMessages stB = true ∧
    (consume envStopped stB tpA).result = ConsumeResult.msg [8] ∧
    (consume envStopped stB tpA).pullAttempted = false ∧
    (consume envStopped stB tpA).state.stalled_status = StalledStatus.CONSUMER_STOPPED := by
  decide

/-- C6 amended: with a matching batch and remaining entries the call returns
the payload at the cursor without pulling and advances the cursor by one,
but it leaves StalledStatus untouched on this path: CONSUMER_STOPPED when
the stop flag was set at entry, otherwise the pre-call value (NOT_STALLED
after a preceding successful pull). -/
theorem consume_fast_path_amended (env : ConsumeEnv) (st : ConsumerState)
    (tp : TopicPartition) (m : Message)
    (hcur : st.messages.get? st.current = some m)
    (htopic : m.topic = tp.topic) (hpart : m.partition_id = tp.partition_id) :
    (consume env st tp).result = ConsumeResult.msg m.payload ∧
    (consume env st tp).pullAttempted = false ∧
    (consume env st tp).state.messages = st.messages ∧
    (consume env st tp).state.current = st.current + 1 ∧
    (consume env st tp).state.stalled_status =
      (if env.stopAtEntry then StalledStatus.CONSUMER_STOPPED else st.stalled_status) := by
  have hpu : polledDataUnusable st tp = false := by
    unfold polledDataUnusable
    rw [hcur]
    simp [htopic, hpart]
  have hmore : hasMorePolledMessages st = true := by
    unfold hasMorePolledMessages
    by_cases h : st.current < st.messages.length
    · simpa using h
    · rw [List.get?_eq_none.mpr (by omega)] at hcur
      cases hcur
  have hg : getNextMessage (resetIfStopped env.stopAtEntry st)
      = (some m.payload,
          { resetIfStopped env.stopAtEntry st with current := st.current + 1 }) := by
    unfold getNextMessage
    rw [resetIfStopped_messages, resetIfStopped_current, hcur]
    simp [resetIfStopped_messages]
  have key : consume env st tp =
      ⟨ConsumeResult.msg m.payload,
        { resetIfStopped env.stopAtEntry st with current := st.current + 1 }, false⟩ := by
    unfold consume
    simp [polledDataUnusable_reset, hasMore_reset, hpu, hmore, hg]
  rw [key]
  refine ⟨rfl, rfl, resetIfStopped_messages _ _, rfl, ?_⟩
  show (resetIfStopped env.stopAtEntry st).stalled_status = _
  exact resetIfStopped_stalled _ _

/-- Witness for the amended C6: a matching buffered message is returned, the
cursor advances, and StalledStatus keeps its pre-call value. -/
theorem consume_fast_path_amended_witness :
    (consume envIdle stA tpA).result = ConsumeResult.msg msgA.payload ∧
    (consume envIdle stA tpA).pullAttempted = false ∧
    (consume envIdle stA tpA).state.messages = stA.messages ∧
    (consume envIdle stA tpA).state.current = stA.current + 1 ∧
    (consume envIdle stA tpA).state.stalled_status =
      (if envIdle.stopAtEntry then StalledStatus.CONSUMER_STOPPED
        else stA.stalled_status) :=
  consume_fast_path_amended envIdle stA tpA msgA (by decide) (by decide) (by decide)

/-- C7: a non-empty pull whose messages all carry delivery errors is
filtered down to the empty batch; the call marks ERRORS_RETURNED and returns
nothing. -/
theorem consume_all_errors_stalls (env : ConsumeEnv) (st : ConsumerState)
    (tp : TopicPartition)
    (hstop : env.stopAfterPull = false)
    (hpu : polledDataUnusable st tp = false)
    (hmore : hasMorePolledMessages st = false)
    (hkey : mapContains st.queues tp = true)
    (hne : env.pulled ≠ [])
    (herr : ∀ m ∈ env.pulled, m.error.isSome = true) :
    (consume env st tp).result = ConsumeResult.nothing ∧
    (consume env st tp).pullAttempted = true ∧
    (consume env st tp).state.stalled_status = StalledStatus.ERRORS_RETURNED := by
  rw [consume_eq_poll env st tp hpu hmore]
  have hkey1 : mapContains (resetIfStopped env.stopAtEntry st).queues tp = true := by
    rw [resetIfStopped_queues]
    exact hkey
  rw [consumePoll_all_errors env _ tp hstop hkey1 hne herr]
  exact ⟨rfl, rfl, rfl⟩

/-- Witness for C7: a pull delivering a single error message ends with
ERRORS_RETURNED and no payload. -/
theorem consume_all_errors_stalls_witness :
    (consume envErr stEmptyBatch tpA).result = ConsumeResult.nothing ∧
    (consume envErr stEmptyBatch tpA).pullAttempted = true ∧
    (consume envErr stEmptyBatch tpA).state.stalled_status
      = StalledStatus.ERRORS_RETURNED :=
  consume_all_errors_stalls envErr stEmptyBatch tpA rfl (by decide) (by decide)
    (by decide) (by decide) (by decide)

/-- C10: queue-map keys collide under operator< exactly when the full
(topic, partition_id, offset) triples are equal, lookup succeeds exactly on
full-triple membership, and a consume call that reaches the lookup with an
absent key (for example matching topic and partition id but a different
offset) throws out of the call instead of returning nothing. -/
theorem consume_queue_lookup_strict :
    (∀ a b : TopicPartition, (tpLt a b = false ∧ tpLt b a = false) ↔ a = b) ∧
    (∀ (keys : List TopicPartition) (k : TopicPartition),
      mapContains keys k = true ↔ k ∈ keys) ∧
    (∀ env st tp, polledDataUnusable st tp = false →
      hasMorePolledMessages st = false → tp ∉ st.queues →
      (consume env st tp).result = ConsumeResult.thrown ∧
      (consume env st tp).pullAttempted = false) := by
  refine ⟨tpLt_both_false_iff, mapContains_iff_mem, ?_⟩
  intro env st tp hpu hmore hmem
  have hkey : mapContains st.queues tp = false := by
    cases h : mapContains st.queues tp
    · rfl
    · exact absurd ((mapContains_iff_mem _ _).mp h) hmem
  rw [consume_eq_poll env st tp hpu hmore]
  have hkey1 : mapContains (resetIfStopped env.stopAtEntry st).queues tp = false := by
    rw [resetIfStopped_queues]
    exact hkey
  rw [consumePoll_absent_key env _ tp hkey1]
  exact ⟨rfl, rfl⟩

/-- Witness for C10: queues keyed at offset 5, lookup with the same topic
and partition at offset 7 throws. -/
theorem consume_queue_lookup_strict_witness :
    (consume envIdle stOff tpOff7).result = ConsumeResult.thrown ∧
    (consume envIdle stOff tpOff7).pullAttempted = false :=
  consume_queue_lookup_strict.2.2 envIdle stOff tpOff7 (by decide) (by decide)
    (by decide)

theorem commitGo_stop (client : Nat → CommitOutcome) (fuel calls : Nat) :
    commitGo client fuel calls true = (calls, true) := by
  cases fuel <;> simp [commitGo]

theorem commitGo_calls_le (client : Nat → CommitOutcome) :
    ∀ fuel calls c, (commitGo client fuel calls c).1 ≤ calls + fuel := by
  intro fuel
  induction fuel with
  | zero => intro calls c; simp [commitGo]
  | succ n ih =>
    intro calls c
    unfold commitGo
    cases c
    · cases hc : client calls
      · simpa using Nat.le_trans (ih (calls + 1) true) (by omega)
      · simpa using Nat.le_trans (ih (calls + 1) true) (by omega)
      · simpa using Nat.le_trans (ih (calls + 1) false) (by omega)
    · simp

theorem commitGo_first (client : Nat → CommitOutcome) :
    ∀ k fuel calls, k < fuel →
      (∀ j, j < k → client (calls + j) = CommitOutcome.genericError) →
      client (calls + k) ≠ CommitOutcome.genericError →
      commitGo client fuel calls false = (calls + k + 1, true) := by
  intro k
  induction k with
  | zero =>
    intro fuel calls hk hprev hck
    obtain ⟨f, rfl⟩ : ∃ f, fuel = f + 1 := ⟨fuel - 1, by omega⟩
    unfold commitGo
    cases hc : client calls
    · simp [commitGo_stop]
    · simp [commitGo_stop]
    · exact absurd (by simpa using hc) hck
  | succ k ih =>
    intro fuel calls hk hprev hck
    obtain ⟨f, rfl⟩ : ∃ f, fuel = f + 1 := ⟨fuel - 1, by omega⟩
    have h0 : client calls = CommitOutcome.genericError := by
      simpa using hprev 0 (by omega)
    unfold commitGo
    rw [if_neg (by simp), h0]
    have hrec := ih f (calls + 1) (by omega)
      (fun j hj => by
        have e : calls + 1 + j = calls + (j + 1) := by omega
        rw [e]
        exact hprev (j + 1) (by omega))
      (by
        have e : calls + 1 + k = calls + (k + 1) := by omega
        rw [e]
        exact hck)
    have e2 : calls + 1 + k + 1 = calls + (k + 1) + 1 := by omega
    rw [hrec, e2]

theorem commitGo_all_generic (client : Nat → CommitOutcome) :
    ∀ fuel calls, (∀ j, j < fuel → client (calls + j) = CommitOutcome.genericError) →
      commitGo client fuel calls false = (calls + fuel, false) := by
  intro fuel
  induction fuel with
  | zero => intro calls _; simp [commitGo]
  | succ f ih =>
    intro calls h
    have h0 : client calls = CommitOutcome.genericError := by
      simpa using h 0 (by omega)
    unfold commitGo
    rw [if_neg (by simp), h0]
    rw [ih (calls + 1)
      (fun j hj => by
        have e : calls + 1 + j = calls + (j + 1) := by omega
        rw [e]
        exact h (j + 1) (by omega))]
    have e2 : calls + 1 + f = calls + (f + 1) := by omega
    rw [e2]

/-- C3: commit makes at most 5 broker calls; if the first non-generic
outcome (a success or a "no offset to commit" answer, which the code also
treats as committed) arrives at attempt k, the loop stops after k + 1 calls
and records one KafkaCommits and no failure; if all 5 attempts fail with a
generic error, exactly 5 calls are made, exactly one KafkaCommitFailures is
recorded, and the function still returns normally with that result. -/
theorem commit_bounded_retries (client : Nat → CommitOutcome) :
    (commit client).attempts ≤ 5 ∧
    (∀ k, k < 5 → (∀ j, j < k → client j = CommitOutcome.genericError) →
      client k ≠ CommitOutcome.genericError →
      commit client = ⟨k + 1, 1, 0⟩) ∧
    ((∀ i, i < 5 → client i = CommitOutcome.genericError) →
      commit client = ⟨5, 0, 1⟩) := by
  refine ⟨?_, ?_, ?_⟩
  · have h := commitGo_calls_le client 5 0 false
    unfold commit
    cases hc : (commitGo client 5 0 false).2 <;> simp [hc] <;> omega
  · intro k hk hprev hck
    have hgo := commitGo_first client k 5 0 hk
      (fun j hj => by simpa using hprev j hj) (by simpa using hck)
    unfold commit
    rw [hgo]
    simp
  · intro h
    have hgo := commitGo_all_generic client 5 0 (fun j hj => by simpa using h j hj)
    unfold commit
    rw [hgo]
    simp

/-- Witness for C3: an always-failing client makes exactly 5 attempts and
records one failure; a client that always answers "no offset to commit"
stops after one attempt and records a success. -/
theorem commit_bounded_retries_witness :
    commit (fun _ => CommitOutcome.genericError) = ⟨5, 0, 1⟩ ∧
    commit (fun _ => CommitOutcome.noOffset) = ⟨1, 1, 0⟩ :=
  ⟨(commit_bounded_retries (fun _ => CommitOutcome.genericError)).2.2 (fun _ _ => rfl),
    (commit_bounded_retries (fun _ => CommitOutcome.noOffset)).2.1 0 (by omega)
      (fun j hj => absurd hj (Nat.not_lt_zero j)) (fun h => CommitOutcome.noConfusion h)⟩

/-- C9: the teardown drain loop terminates for every stream of poll results,
as long as the steady clock is monotone and eventually exceeds the 5000 ms
budget: some iteration bound makes the loop exit via one of its three break
conditions (no message, duplicate consecutive error or EOF, or budget
exceeded). -/
theorem drainConsumerQueue_terminates (poll : Nat → Option DrainMsg) (t0 : Nat)
    (clock : Nat → Nat)
    (hmono : ∀ i, clock i ≤ clock (i + 1))
    (hbudget : ∃ N, t0 + 5000 < clock N) :
    ∃ fuel, (drainConsumerQueue poll t0 clock fuel).isSome = true := by
  obtain ⟨N, hN⟩ := hbudget
  have hmle : ∀ a b : Nat, a ≤ b → clock a ≤ clock b := fun a b h =>
    monotone_nat_of_le_succ hmono h
  have key : ∀ k i lastErr, N ≤ i + k →
      (drainGo poll t0 clock (k + 1) i lastErr).isSome = true := by
    intro k
    induction k with
    | zero =>
      intro i lastErr hNi
      have hci : t0 + 5000 < clock i :=
        Nat.lt_of_lt_of_le hN (hmle N i (by omega))
      unfold drainGo
      cases hp : poll i
      · simp
      · rename_i m
        dsimp only
        by_cases hbrk : (m.err != 0 && (m.isEof || m.err == lastErr)) = true
        · simp [hbrk]
        · rw [if_neg hbrk, if_pos (show 5000 < clock i - t0 by omega)]
          simp
    | succ k ih =>
      intro i lastErr hNi
      unfold drainGo
      cases hp : poll i
      · simp
      · rename_i m
        dsimp only
        by_cases hbrk : (m.err != 0 && (m.isEof || m.err == lastErr)) = true
        · simp [hbrk]
        · rw [if_neg hbrk]
          by_cases htime : 5000 < clock i - t0
          · rw [if_pos htime]
            simp
          · rw [if_neg htime]
            exact ih (i + 1) m.err (by omega)
  exact ⟨N + 1, key N 0 0 (by omega)⟩

/-- Witness for C9: a client whose first poll returns no message and the
identity clock terminate the drain loop. -/
theorem drainConsumerQueue_terminates_witness :
    ∃ fuel, (drainConsumerQueue (fun _ => none) 0 (fun i => i) fuel).isSome = true :=
  drainConsumerQueue_terminates (fun _ => none) 0 (fun i => i)
    (fun i => Nat.le_succ i) ⟨5001, Nat.lt_succ_self 5000⟩

end KafkaConsumer2
